import Mathlib

/-!
Verification of the console-message formatting and multiplexing pipeline of
`chrome-console-javascript`.

The development shallowly embeds the two pipeline variants found in the
repository:

* `lib/chrome-console.js` — the protocol-value variant: `formatArgs`
  (printf-style interpolation over Chrome DevTools Protocol remote objects)
  and the two notification-channel handlers
  (`Runtime.consoleAPICalled` / `Console.messageAdded`) with their shared
  `processedMessages` identity set.
* the structured variant (utils + `ChromeConsoleCapture`):
  `formatConsoleMessage`, `getConsoleColor`, `processMessage`,
  `setupFileOutput`'s ANSI-stripped file copy, and `onMessage`.

JavaScript dynamic values are embedded as the inductive `JVal` (JSON values
plus `undefined`); JS numbers are modelled as integers (fractional doubles are
outside the embedding and no verified property depends on them).
-/

/-- A JavaScript value as it can reach the pipeline: a JSON value or
`undefined`.  Reference cycles are not representable (the upstream
`jsonValue()` resolution cannot deliver them either). -/
inductive JVal where
  | str (s : String)
  | num (n : Int)
  | boolV (b : Bool)
  | null
  | undef
  | arr (elems : List JVal)
  | obj (props : List (String × JVal))
deriving Repr

/-- JS truthiness of an embedded value (`""`, `0`, `false`, `null`,
`undefined` are falsy; every array/object is truthy). -/
def jsTruthy : JVal → Bool
  | .str s => !(s == "")
  | .num n => !(n == 0)
  | .boolV b => b
  | .null => false
  | .undef => false
  | .arr _ => true
  | .obj _ => true

/-- JS `typeof v === 'object'` (true for `null`, arrays and plain objects). -/
def jsTypeofObject : JVal → Bool
  | .null => true
  | .arr _ => true
  | .obj _ => true
  | _ => false

def isUndefV : JVal → Bool
  | .undef => true
  | _ => false

mutual

/-- JS `String(v)` coercion.  Arrays join their elements with `,`
(`Array.prototype.toString`), objects print as `[object Object]`. -/
def jsToString : JVal → String
  | .str s => s
  | .num n => toString n
  | .boolV b => cond b "true" "false"
  | .null => "null"
  | .undef => "undefined"
  | .arr xs => jsArrJoin xs
  | .obj _ => "[object Object]"
termination_by v => (sizeOf v, 0)
decreasing_by all_goals (simp_wf; omega)

/-- Model of `Array.prototype.join(',')`: elements are `String`-coerced, except that
`null`/`undefined` elements contribute the empty string. -/
def jsArrJoin : List JVal → String
  | [] => ""
  | [v] => jsJoinElem v
  | v :: rest => jsJoinElem v ++ "," ++ jsArrJoin rest
termination_by xs => (sizeOf xs, 2)
decreasing_by all_goals (simp_wf; omega)

def jsJoinElem : JVal → String
  | .null => ""
  | .undef => ""
  | v => jsToString v
termination_by v => (sizeOf v, 1)
decreasing_by all_goals (simp_wf; omega)

end

/-- Model of `parseInt(s, 10)`: skip leading ASCII whitespace, optional sign, then a
(non-empty) decimal-digit prefix; `none` models `NaN`. -/
def jsParseInt (s : String) : Option Int :=
  let l := s.data.dropWhile (fun c => c == ' ' || c == '\t' || c == '\n' || c == '\r')
  let signAndRest : Bool × List Char :=
    match l with
    | '-' :: rest => (true, rest)
    | '+' :: rest => (false, rest)
    | other => (false, other)
  let digits := signAndRest.2.takeWhile Char.isDigit
  if digits.isEmpty then none
  else
    let mag : Int := digits.foldl (fun acc c => acc * 10 + (c.toNat - '0'.toNat)) 0
    some (if signAndRest.1 then -mag else mag)

/-- Model of `parseFloat(s)`, restricted to the integer-valued embedding: the sign and
leading digit run are parsed; a fractional part cannot be represented (no
verified property evaluates `%f` on a fractional string). -/
def jsParseFloat (s : String) : Option Int :=
  jsParseInt s

/-! ## Compact JSON serialization (`JSON.stringify(v)`) -/

def hexDigitChar (n : Nat) : Char :=
  if n < 10 then Char.ofNat (48 + n) else Char.ofNat (97 + (n - 10))

/-- The JSON escape of one character, as emitted by `JSON.stringify`. -/
def jsonEscapeChar (c : Char) : List Char :=
  if c == '"' then ['\\', '"']
  else if c == '\\' then ['\\', '\\']
  else if c == '\x08' then ['\\', 'b']
  else if c == '\x09' then ['\\', 't']
  else if c == '\n' then ['\\', 'n']
  else if c == '\x0c' then ['\\', 'f']
  else if c == '\x0d' then ['\\', 'r']
  else if c.toNat < 32 then
    ['\\', 'u', '0', '0', hexDigitChar (c.toNat / 16), hexDigitChar (c.toNat % 16)]
  else [c]

/-- A JSON string literal (opening quote, escaped body, closing quote). -/
def jsonQuote (s : String) : List Char :=
  '"' :: s.data.foldr (fun c acc => jsonEscapeChar c ++ acc) ['"']

def joinComma : List (List Char) → List Char
  | [] => []
  | [x] => x
  | x :: rest => x ++ ',' :: joinComma rest

mutual

/-- Model of `JSON.stringify(v)` (no indentation).  A bare `undefined` renders as
`null`: it is only ever reached as an array element (where `JSON.stringify`
substitutes `null`); object properties with `undefined` values are skipped
by `stringifyProps`, and the top-level value serialized by the pipeline is
always an object. -/
def stringifyVal : JVal → List Char
  | .str s => jsonQuote s
  | .num n => (toString n).data
  | .boolV b => (cond b "true" "false").data
  | .null => ['n', 'u', 'l', 'l']
  | .undef => ['n', 'u', 'l', 'l']
  | .arr xs => '[' :: stringifyArr xs ++ [']']
  | .obj ps => '\x7b' :: joinComma (stringifyProps ps) ++ ['\x7d']
termination_by v => (sizeOf v, 0)
decreasing_by all_goals (simp_wf; omega)

def stringifyArr : List JVal → List Char
  | [] => []
  | [v] => stringifyVal v
  | v :: rest => stringifyVal v ++ ',' :: stringifyArr rest
termination_by xs => (sizeOf xs, 1)
decreasing_by all_goals (simp_wf; omega)

/-- The rendered `"key":value` fragments of an object, skipping properties
whose value is `undefined` (which `JSON.stringify` omits). -/
def stringifyProps : List (String × JVal) → List (List Char)
  | [] => []
  | (k, v) :: rest =>
    if isUndefV v then stringifyProps rest
    else (jsonQuote k ++ ':' :: stringifyVal v) :: stringifyProps rest
termination_by ps => (sizeOf ps, 1)
decreasing_by all_goals (simp_wf; omega)

end

/-! ## Pretty JSON serialization (`JSON.stringify(v, null, 2)`) -/

def prettyGap : List Char := [' ', ' ']

def joinCommaNl : List (List Char) → List Char
  | [] => []
  | [x] => x
  | x :: rest => x ++ ',' :: '\n' :: joinCommaNl rest

mutual

/-- Model of `JSON.stringify(v, null, 2)`: two-space indented pretty printing, with
`ind` the indentation of the enclosing container.  `undefined` is handled as
in `stringifyVal`. -/
def prettyVal (ind : List Char) : JVal → List Char
  | .str s => jsonQuote s
  | .num n => (toString n).data
  | .boolV b => (cond b "true" "false").data
  | .null => ['n', 'u', 'l', 'l']
  | .undef => ['n', 'u', 'l', 'l']
  | .arr [] => ['[', ']']
  | .arr (v :: rest) =>
    '[' :: '\n' :: prettyItems (ind ++ prettyGap) (v :: rest) ++ '\n' :: (ind ++ [']'])
  | .obj ps =>
    let rendered := prettyProps (ind ++ prettyGap) ps
    if rendered.isEmpty then ['\x7b', '\x7d']
    else '\x7b' :: '\n' :: joinCommaNl rendered ++ '\n' :: (ind ++ ['\x7d'])
termination_by v => (sizeOf v, 0)
decreasing_by all_goals (simp_wf; omega)

def prettyItems (ind : List Char) : List JVal → List Char
  | [] => []
  | [v] => ind ++ prettyVal ind v
  | v :: rest => ind ++ prettyVal ind v ++ ',' :: '\n' :: prettyItems ind rest
termination_by xs => (sizeOf xs, 1)
decreasing_by all_goals (simp_wf; omega)

def prettyProps (ind : List Char) : List (String × JVal) → List (List Char)
  | [] => []
  | (k, v) :: rest =>
    if isUndefV v then prettyProps ind rest
    else (ind ++ jsonQuote k ++ ':' :: ' ' :: prettyVal ind v) :: prettyProps ind rest
termination_by ps => (sizeOf ps, 1)
decreasing_by all_goals (simp_wf; omega)

end

/-! ## Remote protocol objects and `formatArgs` (`lib/chrome-console.js`) -/

/-- A Chrome DevTools Protocol remote object as consumed by `formatArgs`:
the fields the source reads (`type`, `value`, `subtype`, `description`,
`preview`); absent fields are `none` (JS `undefined`). -/
structure RemoteArg where
  type : String
  value : Option JVal
  subtype : Option String
  description : Option String
  preview : Option JVal
deriving Repr

/-- Model of `JSON.stringify(arg)` on the remote-object wrapper: serializes the
present fields in protocol order. -/
def remoteArgProps (arg : RemoteArg) : List (String × JVal) :=
  [("type", JVal.str arg.type)]
    ++ (match arg.value with | some v => [("value", v)] | none => [])
    ++ (match arg.subtype with | some s => [("subtype", JVal.str s)] | none => [])
    ++ (match arg.description with | some d => [("description", JVal.str d)] | none => [])
    ++ (match arg.preview with | some p => [("preview", p)] | none => [])

def stringifyRemoteArg (arg : RemoteArg) : String :=
  String.mk (stringifyVal (JVal.obj (remoteArgProps arg)))

/-- The argument-rendering ladder of `formatArgs`.  The source repeats this
exact chain three times (the `%s` case, the remaining-args loop, and the
no-format-string join); protocol remote objects of type `string` carry a
string `value`, under which the three copies coincide (the join context
would render a *missing* value as the empty string, the other two as
`"undefined"`; such an object cannot be produced by the protocol). -/
def renderRemoteArg (arg : RemoteArg) : String :=
  if arg.type == "string" then jsToString (arg.value.getD JVal.undef)
  else if arg.type == "number" || arg.type == "boolean" then
    jsToString (arg.value.getD JVal.undef)
  else if arg.type == "undefined" then "undefined"
  else if arg.type == "object" && arg.subtype == some "null" then "null"
  else
    match arg.description with
    | some d => if d == "" then stringifyRemoteArg arg else d
    | none => stringifyRemoteArg arg

/-- The substitution performed for one matched specifier `%c`, given the
consumed argument (the body of the `replace` callback's `switch`). -/
def substSpec (c : Char) (arg : RemoteArg) : String :=
  if c == 's' then renderRemoteArg arg
  else if c == 'd' || c == 'i' then
    if arg.type == "number" then
      match jsParseInt (jsToString (arg.value.getD JVal.undef)) with
      | some n => toString n
      | none => "NaN"
    else toString ((jsParseInt (jsToString (arg.value.getD JVal.undef))).getD 0)
  else if c == 'f' then
    if arg.type == "number" then jsToString (arg.value.getD JVal.undef)
    else toString ((jsParseFloat (jsToString (arg.value.getD JVal.undef))).getD 0)
  else if c == 'o' || c == 'O' then
    if arg.type == "object" && (match arg.preview with | some p => jsTruthy p | none => false) then
      match arg.description with
      | some d => if d == "" then stringifyRemoteArg arg else d
      | none => stringifyRemoteArg arg
    else
      match arg.description with
      | some d => if d == "" then stringifyRemoteArg arg else d
      | none => stringifyRemoteArg arg
  else if c == 'c' then ""
  else "%" ++ String.singleton c

/-- The character class of the specifier regex `%[sdifocO%]`. -/
def isSpecChar (c : Char) : Bool :=
  c == 's' || c == 'd' || c == 'i' || c == 'f' || c == 'o' || c == 'c' || c == 'O' || c == '%'

def defaultRemoteArg : RemoteArg :=
  RemoteArg.mk "undefined" none none none none

/-- The left-to-right scan of `formatString.replace(/%[sdifocO%]/g, ...)`:
`%%` becomes a literal `%` and consumes nothing; any other specifier is left
verbatim once `argIndex` has reached the end of the argument list, and
otherwise substitutes (and consumes) the next argument.  Returns the
interpolated text together with the final `argIndex`. -/
def interpolate (args : List RemoteArg) : List Char → Nat → String × Nat
  | [], i => ("", i)
  | ['%'], i => ("%", i)
  | '%' :: c2 :: rest2, i =>
    if isSpecChar c2 then
      if c2 == '%' then
        let p := interpolate args rest2 i
        ("%" ++ p.1, p.2)
      else if args.length ≤ i then
        let p := interpolate args rest2 i
        ("%" ++ String.singleton c2 ++ p.1, p.2)
      else
        let p := interpolate args rest2 (i + 1)
        (substSpec c2 (args.getD i defaultRemoteArg) ++ p.1, p.2)
    else
      let p := interpolate args (c2 :: rest2) i
      ("%" ++ p.1, p.2)
  | c :: rest, i =>
    let p := interpolate args rest i
    (String.singleton c ++ p.1, p.2)

/-- The expression `args.map(render).join(' ')` — the no-format-string join of
`formatArgs`. -/
def joinRenderedArgs (args : List RemoteArg) : String :=
  String.intercalate " " (args.map renderRemoteArg)

/-- Model of `formatArgs` of `lib/chrome-console.js`: empty or missing argument lists
yield `''`; a first argument that is a non-empty string containing `%` is a
format string (interpolated, with the arguments after the last consumed one
rendered and appended after a space); otherwise all arguments are rendered
and space-joined. -/
def formatArgs (argsOpt : Option (List RemoteArg)) : String :=
  match argsOpt with
  | none => ""
  | some [] => ""
  | some (firstArg :: restAll) =>
    let args := firstArg :: restAll
    match firstArg.value with
    | some (JVal.str v) =>
      if firstArg.type == "string" && !(v == "") && v.data.contains '%' then
        let p := interpolate args v.data 1
        let remainingArgs := (args.drop p.2).map renderRemoteArg
        if remainingArgs.length > 0 then
          p.1 ++ " " ++ String.intercalate " " remainingArgs
        else p.1
      else joinRenderedArgs args
    | _ => joinRenderedArgs args

/-! ## `getConsoleColor` (structured variant, utils) -/

/-- The literal color table of `getConsoleColor`.  Note the camelCase keys:
the lookup below lowercases its query first, so these entries are
unreachable. -/
def colorMap : List (String × String) :=
  [("log", "white"), ("info", "blue"), ("warn", "yellow"), ("warning", "yellow"),
   ("error", "red"), ("debug", "gray"), ("trace", "gray"), ("dir", "cyan"),
   ("dirxml", "cyan"), ("table", "cyan"), ("group", "magenta"),
   ("groupCollapsed", "magenta"), ("groupEnd", "magenta"), ("assert", "red"),
   ("count", "green"), ("countReset", "green"), ("time", "green"),
   ("timeLog", "green"), ("timeEnd", "green"), ("profile", "yellow"),
   ("profileEnd", "yellow"), ("clear", "gray")]

/-- Characterwise ASCII case mapping of `String.prototype.toLowerCase`
(the strings this pipeline lowercases are ASCII console-type names). -/
def jsToLowerCase (s : String) : String :=
  String.mk (s.data.map Char.toLower)

/-- Characterwise ASCII case mapping of `String.prototype.toUpperCase`. -/
def jsToUpperCase (s : String) : String :=
  String.mk (s.data.map Char.toUpper)

/-- Model of `colorMap[type.toLowerCase()] || 'white'`. -/
def getConsoleColor (type : String) : String :=
  match colorMap.lookup (jsToLowerCase type) with
  | some c => if c == "" then "white" else c
  | none => "white"

/-! ## The structured variant: `formatConsoleMessage` and friends (utils) -/

/-- Model of `url.split('/')` over the character list (JS single-character-separator
split semantics: `"".split('/') = [""]`, separators at the ends produce empty
segments). -/
def jsSplitOnSlash : List Char → List (List Char)
  | [] => [[]]
  | c :: rest =>
    if c == '/' then [] :: jsSplitOnSlash rest
    else
      match jsSplitOnSlash rest with
      | s :: ss => (c :: s) :: ss
      | [] => [[c]]

/-- The expression `url.split('/').pop() || url` — the location filename shown by
`formatConsoleMessage`. -/
def locationFileName (url : String) : String :=
  match (jsSplitOnSlash url.data).getLast? with
  | some last => if last.isEmpty then url else String.mk last
  | none => url

/-- A JS `Date` is modelled by its `toISOString()` rendering, the only
observation the pipeline makes of it. -/
structure JsDate where
  isoString : String
deriving Repr

structure MsgLocation where
  url : String
  lineNumber : Int
  columnNumber : Int
deriving Repr

/-- The canonical message record built by `ChromeConsoleCapture`'s handlers:
the `page.on('console')` path sets `type`/`text`/`timestamp`/`location`/`args`,
the `pageerror` path sets `type`/`text`/`timestamp`/`stack`, and the
`requestfailed` path sets `type`/`text`/`timestamp`.  `none` marks a field
the constructing handler did not set. -/
structure ConsoleMessage where
  type : String
  text : String
  timestamp : JsDate
  location : Option MsgLocation
  args : Option (List JVal)
  stack : Option String
deriving Repr

/-- The formatting-relevant options of `ChromeConsoleCapture` (after the
constructor's defaulting). -/
structure CaptureOptions where
  timestamp : Bool
  includeStackTrace : Bool
  colorize : Bool
  format : String
  outputFile : Option String
deriving Repr

/-- One argument of the `Args:` block: objects (in the `typeof` sense,
including `null` and arrays) via `JSON.stringify(arg, null, 2)`, everything
else via `String(arg)`.  The source's `catch` fallback to `String(arg)` is
unreachable here: inductive values are acyclic, so `stringify` cannot
throw. -/
def renderJArg (arg : JVal) : String :=
  if jsTypeofObject arg then String.mk (prettyVal [] arg)
  else jsToString arg

/-- The expression `args.map(...).join(' ')` — the rendered-arguments text of
`formatConsoleMessage`. -/
def argsJoinText (args : List JVal) : String :=
  String.intercalate " " (args.map renderJArg)

/-- Model of `formatConsoleMessage(messageData, options)`: timestamp prefix, type
label, optional location, text, optional stack, and the conditional
`Args:` block. -/
def formatConsoleMessage (messageData : ConsoleMessage) (options : CaptureOptions) : String :=
  let output := ""
  let output :=
    if options.timestamp then output ++ "[" ++ messageData.timestamp.isoString ++ "] "
    else output
  let output := output ++ "[" ++ jsToUpperCase messageData.type ++ "] "
  let output :=
    match messageData.location with
    | some loc =>
      if !(loc.url == "") then
        output ++ "(" ++ locationFileName loc.url ++ ":" ++ toString loc.lineNumber
          ++ ":" ++ toString loc.columnNumber ++ ") "
      else output
    | none => output
  let output := output ++ messageData.text
  let output :=
    if options.includeStackTrace then
      match messageData.stack with
      | some st => if st == "" then output else output ++ "\n" ++ st
      | none => output
    else output
  match messageData.args with
  | some args =>
    if args.length > 0 then
      let argsText := argsJoinText args
      if argsText != messageData.text && argsText.trim != "" then
        output ++ "\n  Args: " ++ argsText
      else output
    else output
  | none => output

/-- The portion of `formatConsoleMessage` built before the `Args:` block is
considered (same accumulation chain, stopping after the stack trace). -/
def formatConsoleBase (messageData : ConsoleMessage) (options : CaptureOptions) : String :=
  let output := ""
  let output :=
    if options.timestamp then output ++ "[" ++ messageData.timestamp.isoString ++ "] "
    else output
  let output := output ++ "[" ++ jsToUpperCase messageData.type ++ "] "
  let output :=
    match messageData.location with
    | some loc =>
      if !(loc.url == "") then
        output ++ "(" ++ locationFileName loc.url ++ ":" ++ toString loc.lineNumber
          ++ ":" ++ toString loc.columnNumber ++ ") "
      else output
    | none => output
  let output := output ++ messageData.text
  if options.includeStackTrace then
    match messageData.stack with
    | some st => if st == "" then output else output ++ "\n" ++ st
    | none => output
  else output

/-! ## `processMessage`: output line, colorization, file copy -/

/-- Model of `JSON.stringify(messageData)`: the present fields in construction
order (a `Date` serializes through `toJSON()` as its ISO string). -/
def messageProps (m : ConsoleMessage) : List (String × JVal) :=
  [("type", JVal.str m.type), ("text", JVal.str m.text),
   ("timestamp", JVal.str m.timestamp.isoString)]
    ++ (match m.location with
        | some loc =>
          [("location", JVal.obj
            [("url", JVal.str loc.url), ("lineNumber", JVal.num loc.lineNumber),
             ("columnNumber", JVal.num loc.columnNumber)])]
        | none => [])
    ++ (match m.args with | some args => [("args", JVal.arr args)] | none => [])
    ++ (match m.stack with | some st => [("stack", JVal.str st)] | none => [])

def stringifyMsg (m : ConsoleMessage) : List Char :=
  stringifyVal (JVal.obj (messageProps m))

/-- The SGR open code chalk uses for each color name `getConsoleColor` can
produce (the final `"37"` default is unreachable). -/
def chalkOpenCode (color : String) : String :=
  if color == "white" then "37"
  else if color == "blue" then "34"
  else if color == "yellow" then "33"
  else if color == "red" then "31"
  else if color == "gray" then "90"
  else if color == "cyan" then "36"
  else if color == "magenta" then "35"
  else if color == "green" then "32"
  else "37"

/-- Model of `chalk[color](s)`, abstracted as one enclosing open/close pair.  (Chalk
additionally re-encases each embedded newline and rewrites nested close
codes; both operations only insert complete SGR sequences, which the ANSI
stripper below removes, so the abstraction is invisible to the verified
properties.) -/
def chalkWrap (color : String) (s : String) : String :=
  "\x1b[" ++ chalkOpenCode color ++ "m" ++ s ++ "\x1b[39m"

/-- After `ESC [`: consume `[0-9;]*` and a final `m`; `some rest` is the
input after a complete SGR sequence. -/
def ansiBody : List Char → Option (List Char)
  | [] => none
  | c :: rest =>
    if c == 'm' then some rest
    else if c.isDigit || c == ';' then ansiBody rest
    else none

def ansiTail : List Char → Option (List Char)
  | [] => none
  | c :: rest => if c == '[' then ansiBody rest else none

theorem ansiBody_length : ∀ l r, ansiBody l = some r → r.length ≤ l.length := by
  intro l
  induction l with
  | nil => intro r h; simp [ansiBody] at h
  | cons c rest ih =>
    intro r h
    simp only [ansiBody] at h
    split at h
    · injection h with h'
      subst h'
      exact Nat.le_succ _
    · split at h
      · exact Nat.le_trans (ih r h) (Nat.le_succ _)
      · exact absurd h (by simp)

theorem ansiTail_length : ∀ l r, ansiTail l = some r → r.length < l.length := by
  intro l r h
  match l with
  | [] => simp [ansiTail] at h
  | c :: rest =>
    simp only [ansiTail] at h
    by_cases hc : c == '['
    · simp only [hc, if_true] at h
      exact Nat.lt_of_le_of_lt (ansiBody_length rest r h) (Nat.lt_succ_self _)
    · simp [hc] at h

/-- Model of `output.replace(/\x1b\[[0-9;]*m/g, '')`: left-to-right scan; a complete
SGR sequence is dropped, any other character (including a stray `ESC`) is
kept. -/
def stripAnsiChars : List Char → List Char
  | [] => []
  | c :: rest =>
    if c == '\x1b' then
      match h : ansiTail rest with
      | some r => stripAnsiChars r
      | none => c :: stripAnsiChars rest
    else c :: stripAnsiChars rest
termination_by l => l.length
decreasing_by
  · exact Nat.lt_succ_of_lt (ansiTail_length _ _ h)
  · exact Nat.lt_succ_self _
  · exact Nat.lt_succ_self _

def stripAnsi (s : String) : String :=
  String.mk (stripAnsiChars s.data)

/-- Model of `processMessage(messageData)`: the terminal write and the optional file
copy (`hasFileStream` models `this.fileStream` being set).  The terminal
write is colorized only for `colorize` with format exactly `'default'`; the
file copy is the uncolored line with ANSI sequences stripped. -/
def processMessage (options : CaptureOptions) (hasFileStream : Bool)
    (messageData : ConsoleMessage) : String × Option String :=
  let output :=
    if options.format == "json" then String.mk (stringifyMsg messageData) ++ "\n"
    else if options.format == "raw" then messageData.text ++ "\n"
    else formatConsoleMessage messageData options ++ "\n"
  let terminal :=
    if options.colorize && options.format == "default" then
      chalkWrap (getConsoleColor messageData.type) output
    else output
  let fileCopy := if hasFileStream then some (stripAnsi output) else none
  (terminal, fileCopy)

/-! ## The two notification channels of `lib/chrome-console.js` -/

/-- Template rendering `${x}` of a possibly-absent numeric field. -/
def jsOptNumToString : Option Int → String
  | some n => toString n
  | none => "undefined"

/-- A `Runtime.consoleAPICalled` notification, restricted to the fields the
handler destructures. -/
structure RuntimeEvent where
  type : String
  args : Option (List RemoteArg)
  executionContextId : Option Int
  timestamp : Option Int
deriving Repr

/-- The identity `` `${timestamp}-${type}-${executionContextId}` `` of the runtime
handler. -/
def runtimeMessageId (e : RuntimeEvent) : String :=
  jsOptNumToString e.timestamp ++ "-" ++ e.type ++ "-"
    ++ jsOptNumToString e.executionContextId

/-- A `Console.messageAdded` notification's `params.message`, restricted to
the fields the handler reads (all optional fields may be absent on the
wire). -/
structure ConsoleEvent where
  level : String
  text : Option String
  type : Option String
  url : Option String
  line : Option Int
  column : Option Int
  timestamp : Option Int
  executionContextId : Option Int
deriving Repr

/-- The identity `` `${timestamp}-${level}-${params.message.executionContextId}` `` of the
console handler. -/
def consoleMessageId (e : ConsoleEvent) : String :=
  jsOptNumToString e.timestamp ++ "-" ++ e.level ++ "-"
    ++ jsOptNumToString e.executionContextId

/-- The `switch (type)` of the runtime handler (the computed `prefix`
string is never used in the emitted line and is not modelled). -/
def runtimeColor (type : String) : String :=
  if type == "error" then "red"
  else if type == "warning" || type == "warn" then "yellow"
  else if type == "info" then "blue"
  else if type == "debug" then "gray"
  else "white"

/-- The `switch (level)` of the console handler. -/
def consoleLevelColor (level : String) : String :=
  if level == "error" then "red"
  else if level == "warning" then "yellow"
  else if level == "info" then "blue"
  else if level == "debug" then "gray"
  else "white"

/-- The `Runtime.consoleAPICalled` handler: drops the event when `args` is
absent or empty; otherwise it *unconditionally* adds the identity to
`processedMessages` (it never checks it) and emits the formatted line.
Returns the updated identity set and the emitted line, if any. -/
def runtimeStep (processedMessages : List String) (e : RuntimeEvent) :
    List String × Option String :=
  match e.args with
  | none => (processedMessages, none)
  | some args =>
    if args.isEmpty then (processedMessages, none)
    else
      let messageId := runtimeMessageId e
      let processed := processedMessages.insert messageId
      let message := formatArgs (some args)
      (processed, some (chalkWrap (runtimeColor e.type) message))

/-- The `Console.messageAdded` handler: suppresses the event when its
identity is already in `processedMessages` (it never *adds* to the set),
drops it when `text` is falsy, and otherwise emits the text plus an optional
`    at url:line:column` line when `url` and `line` are truthy. -/
def consoleStep (processedMessages : List String) (e : ConsoleEvent) :
    List String × Option (String × Option String) :=
  let messageId := consoleMessageId e
  if processedMessages.contains messageId then (processedMessages, none)
  else
    match e.text with
    | none => (processedMessages, none)
    | some t =>
      if t == "" then (processedMessages, none)
      else
        let mainLine := chalkWrap (consoleLevelColor e.level) t
        let locLine :=
          match e.url, e.line with
          | some u, some l =>
            if !(u == "") && !(l == 0) then
              some (chalkWrap "gray"
                ("    at " ++ u ++ ":" ++ toString l ++ ":" ++ toString (e.column.getD 0)))
            else none
          | _, _ => none
        (processedMessages, some (mainLine, locLine))

/-- A raw event from either notification channel. -/
inductive RawEvent where
  | runtimeCall (e : RuntimeEvent)
  | messageAdded (e : ConsoleEvent)
deriving Repr

/-- Process one event against the shared identity set; the second component
is the list of lines written for it (`none` = the event was dropped or
suppressed, no output at all). -/
def stepEvent (s : List String) : RawEvent → List String × Option (List String)
  | .runtimeCall e =>
    let p := runtimeStep s e
    (p.1, p.2.map fun line => [line])
  | .messageAdded e =>
    let p := consoleStep s e
    (p.1, p.2.map fun q => q.1 :: (match q.2 with | some l => [l] | none => []))

/-- The number of events of the sequence that emit a message, starting from
identity set `s`. -/
def emitCount (s : List String) : List RawEvent → Nat
  | [] => 0
  | ev :: rest =>
    let p := stepEvent s ev
    (if p.2.isSome then 1 else 0) + emitCount p.1 rest

/-! ## `onMessage` and the capture instance state -/

/-- A JS value passed to `onMessage`: either a function or any other
value. -/
inductive JsCallback where
  | fn (id : Nat)
  | value (v : JVal)
deriving Repr

/-- JS `typeof handler === 'function'`. -/
def typeofIsFunction : JsCallback → Bool
  | .fn _ => true
  | .value _ => false

/-- The mutable instance state of `ChromeConsoleCapture`. -/
structure CaptureState where
  options : CaptureOptions
  browser : Option Unit
  page : Option Unit
  fileStream : Option String
  messageHandlers : List JsCallback
deriving Repr

/-- Model of `onMessage(handler)`: push the handler only when it is a function. -/
def onMessage (st : CaptureState) (handler : JsCallback) : CaptureState :=
  if typeofIsFunction handler then
    { st with messageHandlers := st.messageHandlers ++ [handler] }
  else st

/-! ## Theorems.  C2/C3: format-specifier scanning -/

/-- A protocol string remote object, as sent for a string console argument. -/
def strRemoteArg (s : String) : RemoteArg :=
  RemoteArg.mk "string" (some (JVal.str s)) none none none

/-- Spec-side restatement (for comparison with `interpolate`): with the
positional arguments exhausted, the scan leaves every specifier verbatim and
still collapses each `%%` to a literal `%`. -/
def specExhaustedScan : List Char → String
  | [] => ""
  | '%' :: '%' :: rest => "%" ++ specExhaustedScan rest
  | c :: rest => String.singleton c ++ specExhaustedScan rest

theorem specExhaustedScan_pp (rest : List Char) :
    specExhaustedScan ('%' :: '%' :: rest) = "%" ++ specExhaustedScan rest := rfl

theorem specExhaustedScan_other (c : Char) (rest : List Char) (hc : ¬ c = '%') :
    specExhaustedScan (c :: rest) = String.singleton c ++ specExhaustedScan rest := by
  rw [specExhaustedScan.eq_def]
  split
  · rename_i heq
    exact absurd heq (List.cons_ne_nil _ _)
  · rename_i heq
    injection heq with h1 h2
    exact absurd h1 hc
  · rename_i heq
    injection heq with h1 h2
    subst h1
    subst h2
    rfl

theorem specExhaustedScan_pc (c2 : Char) (rest2 : List Char) (h : ¬ c2 = '%') :
    specExhaustedScan ('%' :: c2 :: rest2) =
      String.singleton '%' ++ specExhaustedScan (c2 :: rest2) := by
  rw [specExhaustedScan.eq_def]
  split
  · rename_i heq
    exact absurd heq (List.cons_ne_nil _ _)
  · rename_i heq
    injection heq with h1 h2
    injection h2 with h3 h4
    exact absurd h3 h
  · rename_i heq
    injection heq with h1 h2
    subst h1
    subst h2
    rfl

theorem interpolate_pct (args : List RemoteArg) (c2 : Char) (rest2 : List Char) (i : Nat) :
    interpolate args ('%' :: c2 :: rest2) i =
      if isSpecChar c2 then
        if c2 == '%' then
          let p := interpolate args rest2 i
          ("%" ++ p.1, p.2)
        else if args.length ≤ i then
          let p := interpolate args rest2 i
          ("%" ++ String.singleton c2 ++ p.1, p.2)
        else
          let p := interpolate args rest2 (i + 1)
          (substSpec c2 (args.getD i defaultRemoteArg) ++ p.1, p.2)
      else
        let p := interpolate args (c2 :: rest2) i
        ("%" ++ p.1, p.2) := rfl

theorem interpolate_ne (args : List RemoteArg) (c : Char) (rest : List Char) (i : Nat)
    (hc : ¬ c = '%') :
    interpolate args (c :: rest) i =
      (String.singleton c ++ (interpolate args rest i).1, (interpolate args rest i).2) := by
  rw [interpolate.eq_def]
  split
  · rename_i heq
    exact absurd heq (List.cons_ne_nil _ _)
  · rename_i heq
    injection heq with h1 h2
    exact absurd h1 hc
  · rename_i heq
    injection heq with h1 h2
    exact absurd h1 hc
  · rename_i heq
    injection heq with h1 h2
    subst h1
    subst h2
    rfl

theorem interpolate_exhausted (args : List RemoteArg) (i : Nat) (hi : args.length ≤ i) :
    ∀ l : List Char, interpolate args l i = (specExhaustedScan l, i) := by
  suffices H : ∀ (n : Nat) (l : List Char), l.length = n →
      interpolate args l i = (specExhaustedScan l, i) from fun l => H l.length l rfl
  intro n
  induction n using Nat.strong_induction_on with
  | _ n ih =>
    intro l hlen
    match l with
    | [] => rfl
    | c :: rest =>
      by_cases hc : c = '%'
      · subst hc
        match rest with
        | [] => rfl
        | c2 :: rest2 =>
          rw [interpolate_pct args c2 rest2 i]
          by_cases hs : isSpecChar c2
          · rw [if_pos hs]
            by_cases h2 : c2 = '%'
            · subst h2
              rw [if_pos (show ('%' == '%') = true from rfl),
                ih rest2.length (by simp [← hlen]; omega) rest2 rfl,
                specExhaustedScan_pp]
            · rw [if_neg (by simpa using h2), if_pos hi,
                ih rest2.length (by simp [← hlen]; omega) rest2 rfl,
                specExhaustedScan_pc c2 rest2 h2, specExhaustedScan_other c2 rest2 h2]
              rfl
          · rw [if_neg hs,
              ih (c2 :: rest2).length (by simp [← hlen]) (c2 :: rest2) rfl,
              specExhaustedScan_pc c2 rest2 (fun hcc => hs (by simp [isSpecChar, hcc]))]
            rfl
      · rw [interpolate_ne args c rest i hc,
          ih rest.length (by simp [← hlen]) rest rfl,
          specExhaustedScan_other c rest hc]

theorem interpolate_100pct (args : List RemoteArg) (i : Nat) :
    interpolate args ('1' :: '0' :: '0' :: '%' :: '%' :: []) i = ("100%", i) := rfl

/-- C2: a format specifier scanned after all positional arguments have been
consumed is left verbatim in the output (with `%%` still collapsing to `%`),
and interpolating `"%s %s"` with exactly one positional argument yields the
rendered argument, a space, and the literal text `%s`. -/
theorem c2_format_specifier_exhaustion :
    (∀ (args : List RemoteArg) (l : List Char) (i : Nat), args.length ≤ i →
        interpolate args l i = (specExhaustedScan l, i))
    ∧ ∀ a : RemoteArg,
        formatArgs (some [strRemoteArg "%s %s", a]) = renderRemoteArg a ++ " %s" :=
  ⟨fun args l i hi => interpolate_exhausted args i hi l, fun a => rfl⟩

/-- Witness for C2 at concrete inputs. -/
theorem c2_format_specifier_exhaustion_witness :
    interpolate [] ['%', 's'] 0 = ("%s", 0) ∧
    formatArgs (some [strRemoteArg "%s %s", strRemoteArg "A"]) = "A %s" := by
  constructor
  · rw [c2_format_specifier_exhaustion.1 [] ['%', 's'] 0 (Nat.le_refl 0)]
    rfl
  · rw [c2_format_specifier_exhaustion.2 (strRemoteArg "A")]
    simp [renderRemoteArg, strRemoteArg, jsToString]

/-- C3: `%%` is replaced by a literal `%` and consumes no positional
argument; interpolating `"100%%"` with any argument list yields `"100%"`
with every argument left unconsumed and appended (space-joined, after a
separating space) as trailing rendered arguments. -/
theorem c3_escaped_percent (rest : List RemoteArg) :
    formatArgs (some (strRemoteArg "100%%" :: rest)) =
      (if rest.isEmpty then "100%"
       else "100%" ++ " " ++ String.intercalate " " (rest.map renderRemoteArg)) := by
  cases rest with
  | nil => rfl
  | cons h t =>
    rw [formatArgs]
    simp only [strRemoteArg, interpolate_100pct]
    rw [if_pos (by decide), if_pos (by simp), if_neg (by simp)]
    simp only [List.drop_succ_cons, List.drop_zero]

/-! ## C4: the color selector -/

/-- C4 (failing part): the camelCase members of the recognized vocabulary do
not receive their table color — the lookup lowercases the query to a string
that is not among the table's camelCase keys, so they all fall through to the
default `"white"` (the table's own `magenta`/`green`/`yellow` entries for
them are unreachable). -/
theorem c4_camelcase_types_fall_to_default :
    getConsoleColor "groupCollapsed" = "white" ∧
    getConsoleColor "groupEnd" = "white" ∧
    getConsoleColor "countReset" = "white" ∧
    getConsoleColor "timeLog" = "white" ∧
    getConsoleColor "timeEnd" = "white" ∧
    getConsoleColor "profileEnd" = "white" ∧
    ¬ getConsoleColor "groupCollapsed" = "magenta" := by
  refine ⟨?_, ?_, ?_, ?_, ?_, ?_, ?_⟩ <;> decide

/-! ## C5: the Args block condition -/

/-- C5: with non-empty `args` in structured mode, the `Args:` block is
appended exactly when the space-joined rendered arguments differ from the
message text and are non-blank after trimming; in particular, rendered args
equal to the text produce no block. -/
theorem c5_args_block_iff (m : ConsoleMessage) (o : CaptureOptions) (args : List JVal)
    (hargs : m.args = some args) (hlen : args.length > 0) :
    (formatConsoleMessage m o =
      if argsJoinText args != m.text && (argsJoinText args).trim != "" then
        formatConsoleBase m o ++ "\n  Args: " ++ argsJoinText args
      else formatConsoleBase m o)
    ∧ (argsJoinText args = m.text → formatConsoleMessage m o = formatConsoleBase m o) := by
  constructor
  · simp only [formatConsoleMessage, formatConsoleBase, hargs]
    rw [if_pos hlen]
  · intro he
    simp only [formatConsoleMessage, formatConsoleBase, hargs, he]
    rw [if_pos hlen]
    simp

/-- Witness for C5 at a concrete message and options. -/
theorem c5_args_block_iff_witness :
    (formatConsoleMessage
        (ConsoleMessage.mk "log" "t" (JsDate.mk "2024-01-01T00:00:00.000Z") none
          (some [JVal.num 1]) none)
        (CaptureOptions.mk true false true "default" none) =
      if argsJoinText [JVal.num 1] != "t" && (argsJoinText [JVal.num 1]).trim != "" then
        formatConsoleBase
          (ConsoleMessage.mk "log" "t" (JsDate.mk "2024-01-01T00:00:00.000Z") none
            (some [JVal.num 1]) none)
          (CaptureOptions.mk true false true "default" none) ++ "\n  Args: "
          ++ argsJoinText [JVal.num 1]
      else
        formatConsoleBase
          (ConsoleMessage.mk "log" "t" (JsDate.mk "2024-01-01T00:00:00.000Z") none
            (some [JVal.num 1]) none)
          (CaptureOptions.mk true false true "default" none))
    ∧ (argsJoinText [JVal.num 1] = "t" →
        formatConsoleMessage
            (ConsoleMessage.mk "log" "t" (JsDate.mk "2024-01-01T00:00:00.000Z") none
              (some [JVal.num 1]) none)
            (CaptureOptions.mk true false true "default" none) =
          formatConsoleBase
            (ConsoleMessage.mk "log" "t" (JsDate.mk "2024-01-01T00:00:00.000Z") none
              (some [JVal.num 1]) none)
            (CaptureOptions.mk true false true "default" none)) :=
  c5_args_block_iff
    (ConsoleMessage.mk "log" "t" (JsDate.mk "2024-01-01T00:00:00.000Z") none
      (some [JVal.num 1]) none)
    (CaptureOptions.mk true false true "default" none)
    [JVal.num 1] rfl (by decide)

/-! ## C6: the structured line shape and filename extraction -/

theorem jsSplitOnSlash_ne_nil (l : List Char) : jsSplitOnSlash l ≠ [] := by
  induction l with
  | nil => simp [jsSplitOnSlash]
  | cons c rest ih =>
    rw [jsSplitOnSlash]
    split
    · simp
    · split
      · simp
      · simp

theorem jsSplitOnSlash_no_sep (l : List Char) (h : ∀ c ∈ l, ¬ c = '/') :
    jsSplitOnSlash l = [l] := by
  induction l with
  | nil => rfl
  | cons c rest ih =>
    rw [jsSplitOnSlash]
    rw [if_neg (by simpa using h c (List.mem_cons_self c rest))]
    rw [ih (fun x hx => h x (List.mem_cons_of_mem c hx))]

/-- Spec-side filename rule: split on `/` and take the final segment; if the
segment is empty (trailing slash) or the URL contains no separator, use the
original URL string unchanged. -/
def specLocationFileName (url : String) : String :=
  let segs := jsSplitOnSlash url.data
  let final := segs.getLastD []
  if final.isEmpty || !url.data.contains '/' then url else String.mk final

theorem locationFileName_eq_spec (url : String) :
    locationFileName url = specLocationFileName url := by
  unfold locationFileName specLocationFileName
  by_cases hsep : url.data.contains '/'
  · match hseg : (jsSplitOnSlash url.data).getLast? with
    | some last =>
      simp only [hseg, List.getLastD_eq_getLast?, Option.getD_some, hsep]
      simp
    | none =>
      exact absurd (List.getLast?_eq_none_iff.mp hseg) (jsSplitOnSlash_ne_nil url.data)
  · have hall : ∀ c ∈ url.data, ¬ c = '/' := by
      intro c hc hcc
      subst hcc
      exact hsep (List.elem_iff.mpr hc)
    rw [jsSplitOnSlash_no_sep url.data hall]
    simp only [List.getLast?_singleton, Option.getD_some, List.getLastD, hsep]
    simp

/-- C6: in structured mode with timestamps enabled, the line is the
timestamp block, the uppercased type label, the location block (filename =
last `/`-segment of the URL, or the URL unchanged on a trailing slash or a
separator-free URL, per the spec-side rule proved equal here), then the
text; the spec's end-to-end example produces exactly its stated line. -/
theorem c6_structured_line_shape :
    (∀ url : String, locationFileName url = specLocationFileName url)
    ∧ (∀ (m : ConsoleMessage) (o : CaptureOptions) (loc : MsgLocation),
        o.timestamp = true → m.location = some loc → ¬ loc.url = "" →
        m.args = none → m.stack = none →
        formatConsoleMessage m o =
          "[" ++ m.timestamp.isoString ++ "] [" ++ jsToUpperCase m.type ++ "] ("
            ++ locationFileName loc.url ++ ":" ++ toString loc.lineNumber ++ ":"
            ++ toString loc.columnNumber ++ ") " ++ m.text)
    ∧ formatConsoleMessage
        (ConsoleMessage.mk "error" "Cannot read x" (JsDate.mk "2024-05-01T12:00:00.000Z")
          (some (MsgLocation.mk "http://h/app.js" 10 3)) none none)
        (CaptureOptions.mk true false true "default" none)
        = "[2024-05-01T12:00:00.000Z] [ERROR] (app.js:10:3) Cannot read x" := by
  refine ⟨locationFileName_eq_spec, ?_, ?_⟩
  · intro m o loc hts hloc hurl hargs hstack
    simp only [formatConsoleMessage, hts, hloc, hargs, hstack, if_true, ite_self]
    rw [if_pos (show (!(loc.url == "")) = true by simp [hurl])]
    simp [String.append_assoc, String.empty_append]
  · decide

/-! ## C7: json mode emits one newline-terminated line -/

theorem digitChar_lt16_ne_nl (m : Nat) (h : m < 16) : ¬ Nat.digitChar m = '\n' := by
  interval_cases m <;> decide

theorem toDigitsCore_no_nl :
    ∀ (f n : Nat) (acc : List Char), '\n' ∉ acc → '\n' ∉ Nat.toDigitsCore 10 f n acc := by
  intro f
  induction f with
  | zero => intro n acc hacc; simpa [Nat.toDigitsCore] using hacc
  | succ f ih =>
    intro n acc hacc
    rw [Nat.toDigitsCore]
    have hcons : '\n' ∉ Nat.digitChar (n % 10) :: acc := by
      simp only [List.mem_cons]
      rintro (h | h)
      · exact digitChar_lt16_ne_nl (n % 10) (by omega) h.symm
      · exact hacc h
    split
    · exact hcons
    · exact ih (n / 10) _ hcons

theorem natRepr_no_nl (n : Nat) : '\n' ∉ (Nat.repr n).data := by
  rw [Nat.repr, Nat.toDigits]
  exact toDigitsCore_no_nl (n + 1) n [] (by simp)

theorem intToString_no_nl (n : Int) : '\n' ∉ (toString n).data := by
  show '\n' ∉ (Int.repr n).data
  match n with
  | Int.ofNat m => exact natRepr_no_nl m
  | Int.negSucc m =>
    rw [Int.repr]
    rw [String.data_append]
    simp only [List.mem_append]
    rintro (h | h)
    · simp at h
    · exact natRepr_no_nl _ h

theorem hexDigitChar_ne_nl (n : Nat) (h : n < 16) : ¬ hexDigitChar n = '\n' := by
  interval_cases n <;> decide

theorem jsonEscapeChar_no_nl (c : Char) : '\n' ∉ jsonEscapeChar c := by
  unfold jsonEscapeChar
  split_ifs with h1 h2 h3 h4 h5 h6 h7 h8
  · decide
  · decide
  · decide
  · decide
  · decide
  · decide
  · decide
  · intro hm
    simp only [List.mem_cons, List.not_mem_nil, or_false] at hm
    rcases hm with h | h | h | h | h | h
    · simp at h
    · simp at h
    · simp at h
    · simp at h
    · exact hexDigitChar_ne_nl (c.toNat / 16) (by omega) h.symm
    · exact hexDigitChar_ne_nl (c.toNat % 16) (by omega) h.symm
  · intro hm
    simp only [List.mem_cons, List.not_mem_nil, or_false] at hm
    simp only [beq_iff_eq] at h5
    exact h5 hm.symm

theorem foldr_escape_no_nl : ∀ l : List Char,
    '\n' ∉ l.foldr (fun c acc => jsonEscapeChar c ++ acc) ['"']
  | [] => by simp
  | c :: rest => by
    rw [List.foldr_cons, List.mem_append]
    rintro (h | h)
    · exact jsonEscapeChar_no_nl c h
    · exact foldr_escape_no_nl rest h

theorem jsonQuote_no_nl (s : String) : '\n' ∉ jsonQuote s := by
  rw [jsonQuote]
  simp only [List.mem_cons]
  rintro (h | h)
  · simp at h
  · exact foldr_escape_no_nl s.data h

theorem stringifyArr_cons2 (v w : JVal) (rest : List JVal) :
    stringifyArr (v :: w :: rest) = stringifyVal v ++ ',' :: stringifyArr (w :: rest) := by
  rw [stringifyArr.eq_def]

theorem stringifyProps_cons (k : String) (v : JVal) (rest : List (String × JVal)) :
    stringifyProps ((k, v) :: rest) =
      if isUndefV v then stringifyProps rest
      else (jsonQuote k ++ ':' :: stringifyVal v) :: stringifyProps rest := by
  rw [stringifyProps.eq_def]

theorem joinComma_no_nl : ∀ ll : List (List Char),
    (∀ x ∈ ll, '\n' ∉ x) → '\n' ∉ joinComma ll
  | [], h => by simp [joinComma]
  | [x], h => h x (List.mem_singleton_self x)
  | x :: y :: rest, h => by
    show '\n' ∉ x ++ ',' :: joinComma (y :: rest)
    simp only [List.mem_append, List.mem_cons]
    rintro (hm | hm | hm)
    · exact h x (List.mem_cons_self x _) hm
    · simp at hm
    · exact joinComma_no_nl (y :: rest) (fun z hz => h z (List.mem_cons_of_mem x hz)) hm

theorem stringifyArr_no_nl : ∀ xs : List JVal,
    (∀ x ∈ xs, '\n' ∉ stringifyVal x) → '\n' ∉ stringifyArr xs
  | [], h => by
    rw [stringifyArr]
    simp
  | [v], h => by
    rw [stringifyArr]
    exact h v (List.mem_singleton_self v)
  | v :: w :: rest, h => by
    rw [stringifyArr_cons2]
    simp only [List.mem_append, List.mem_cons]
    rintro (hm | hm | hm)
    · exact h v (List.mem_cons_self v _) hm
    · simp at hm
    · exact stringifyArr_no_nl (w :: rest) (fun z hz => h z (List.mem_cons_of_mem v hz)) hm

theorem stringifyProps_no_nl : ∀ ps : List (String × JVal),
    (∀ kv ∈ ps, '\n' ∉ stringifyVal kv.2) → ∀ x ∈ stringifyProps ps, '\n' ∉ x
  | [], _ => by
    rw [stringifyProps]
    simp
  | (k, v) :: rest, h => by
    rw [stringifyProps_cons]
    split
    · exact stringifyProps_no_nl rest (fun kv hkv => h kv (List.mem_cons_of_mem _ hkv))
    · intro x hx
      rw [List.mem_cons] at hx
      rcases hx with hx | hx
      · subst hx
        simp only [List.mem_append, List.mem_cons]
        rintro (hm | hm | hm)
        · exact jsonQuote_no_nl k hm
        · simp at hm
        · exact h (k, v) (List.mem_cons_self _ _) hm
      · exact stringifyProps_no_nl rest (fun kv hkv => h kv (List.mem_cons_of_mem _ hkv)) x hx

theorem stringifyVal_no_nl_aux : ∀ (N : Nat) (v : JVal), sizeOf v ≤ N →
    '\n' ∉ stringifyVal v := by
  intro N
  induction N with
  | zero =>
    intro v hv
    exfalso
    cases v <;> simp_arith at hv
  | succ N ihN =>
    intro v hv
    match v with
    | JVal.str s =>
      rw [stringifyVal]
      exact jsonQuote_no_nl s
    | JVal.num n =>
      rw [stringifyVal]
      exact intToString_no_nl n
    | JVal.boolV b =>
      rw [stringifyVal]
      cases b <;> decide
    | JVal.null =>
      rw [stringifyVal]
      decide
    | JVal.undef =>
      rw [stringifyVal]
      decide
    | JVal.arr xs =>
      rw [stringifyVal]
      have helts : ∀ x ∈ xs, '\n' ∉ stringifyVal x := by
        intro x hx
        have hlt : sizeOf x < sizeOf (JVal.arr xs) := by
          have := List.sizeOf_lt_of_mem hx
          simp only [JVal.arr.sizeOf_spec]
          omega
        exact ihN x (by omega)
      simp only [List.mem_cons, List.mem_append]
      rintro ((hm | hm) | hm) <;> first
        | exact stringifyArr_no_nl xs helts hm
        | simp at hm
    | JVal.obj ps =>
      rw [stringifyVal]
      have helts : ∀ kv ∈ ps, '\n' ∉ stringifyVal kv.2 := by
        intro kv hkv
        have hlt : sizeOf kv.2 < sizeOf (JVal.obj ps) := by
          have h1 := List.sizeOf_lt_of_mem hkv
          have h2 : sizeOf kv.2 ≤ sizeOf kv := by
            cases kv
            simp_arith
          simp only [JVal.obj.sizeOf_spec]
          omega
        exact ihN kv.2 (by omega)
      simp only [List.mem_cons, List.mem_append]
      rintro ((hm | hm) | hm) <;> first
        | exact joinComma_no_nl (stringifyProps ps) (stringifyProps_no_nl ps helts) hm
        | simp at hm

theorem stringifyVal_no_nl (v : JVal) : '\n' ∉ stringifyVal v :=
  stringifyVal_no_nl_aux (sizeOf v) v (Nat.le_refl _)

theorem stringifyMsg_no_nl (m : ConsoleMessage) : '\n' ∉ stringifyMsg m :=
  stringifyVal_no_nl (JVal.obj (messageProps m))

theorem stringifyProps_omit (k : String) (l₂ : List (String × JVal)) :
    ∀ l₁ : List (String × JVal),
      stringifyProps (l₁ ++ (k, JVal.undef) :: l₂) = stringifyProps (l₁ ++ l₂)
  | [] => by
    rw [List.nil_append, List.nil_append, stringifyProps_cons]
    simp [isUndefV]
  | (k1, v1) :: rest => by
    rw [List.cons_append, List.cons_append, stringifyProps_cons, stringifyProps_cons,
      stringifyProps_omit k l₂ rest]

/-- C7: in json output mode the terminal write is the serialized message
followed by exactly one newline — the serialization itself contains no
newline character and the serializer is total — and an object property whose
value is not JSON-serializable (`undefined`) is omitted from the serialized
form rather than failing the line. -/
theorem c7_json_mode_single_line :
    (∀ (o : CaptureOptions) (hasFile : Bool) (m : ConsoleMessage), o.format = "json" →
        (processMessage o hasFile m).1 = String.mk (stringifyMsg m) ++ "\n"
          ∧ (stringifyMsg m).count '\n' = 0)
    ∧ ∀ (l₁ l₂ : List (String × JVal)) (k : String),
        stringifyVal (JVal.obj (l₁ ++ (k, JVal.undef) :: l₂)) =
          stringifyVal (JVal.obj (l₁ ++ l₂)) := by
  constructor
  · intro o hasFile m hfmt
    constructor
    · simp only [processMessage, hfmt]
      simp
    · exact List.count_eq_zero.mpr (stringifyMsg_no_nl m)
  · intro l₁ l₂ k
    rw [stringifyVal, stringifyVal, stringifyProps_omit]

/-- Witness for C7 at a concrete json-mode configuration. -/
theorem c7_json_mode_single_line_witness :
    ((processMessage (CaptureOptions.mk true false true "json" none) true
        (ConsoleMessage.mk "log" "hello" (JsDate.mk "2024-01-01T00:00:00.000Z") none
          (some [JVal.num 1]) none)).1 =
      String.mk (stringifyMsg (ConsoleMessage.mk "log" "hello"
        (JsDate.mk "2024-01-01T00:00:00.000Z") none (some [JVal.num 1]) none)) ++ "\n"
        ∧ (stringifyMsg (ConsoleMessage.mk "log" "hello"
            (JsDate.mk "2024-01-01T00:00:00.000Z") none (some [JVal.num 1]) none)).count
            '\n' = 0)
    ∧ stringifyVal (JVal.obj ([("a", JVal.num 1)] ++ ("k", JVal.undef) :: [])) =
        stringifyVal (JVal.obj ([("a", JVal.num 1)] ++ [])) :=
  ⟨c7_json_mode_single_line.1 (CaptureOptions.mk true false true "json" none) true
      (ConsoleMessage.mk "log" "hello" (JsDate.mk "2024-01-01T00:00:00.000Z") none
        (some [JVal.num 1]) none) rfl,
    c7_json_mode_single_line.2 [("a", JVal.num 1)] [] "k"⟩

/-- Witness for C6 at the spec's end-to-end example message. -/
theorem c6_structured_line_shape_witness :
    formatConsoleMessage
        (ConsoleMessage.mk "error" "Cannot read x" (JsDate.mk "2024-05-01T12:00:00.000Z")
          (some (MsgLocation.mk "http://h/app.js" 10 3)) none none)
        (CaptureOptions.mk true false true "default" none) =
      "[" ++ (JsDate.mk "2024-05-01T12:00:00.000Z").isoString ++ "] ["
        ++ jsToUpperCase "error" ++ "] (" ++ locationFileName "http://h/app.js" ++ ":"
        ++ toString (10 : Int) ++ ":" ++ toString (3 : Int) ++ ") " ++ "Cannot read x" :=
  c6_structured_line_shape.2.1
    (ConsoleMessage.mk "error" "Cannot read x" (JsDate.mk "2024-05-01T12:00:00.000Z")
      (some (MsgLocation.mk "http://h/app.js" 10 3)) none none)
    (CaptureOptions.mk true false true "default" none)
    (MsgLocation.mk "http://h/app.js" 10 3) rfl rfl (by decide) rfl rfl

/-! ## C8: drop versus emit on the two channels -/

/-- C8: a runtime-channel event emits a line exactly when it carries a
non-empty `args` list (otherwise it is dropped with no output at all), and a
console-channel event emits exactly when its identity is fresh and its
`text` is truthy — events with absent or empty text are dropped silently,
while an event with text but no location fields still emits its message. -/
theorem c8_drop_versus_emit :
    (∀ (s : List String) (e : RuntimeEvent),
        ((runtimeStep s e).2.isSome = true ↔ ∃ l, e.args = some l ∧ l ≠ []))
    ∧ ∀ (s : List String) (e : ConsoleEvent),
        ((consoleStep s e).2.isSome = true ↔
          s.contains (consoleMessageId e) = false ∧ ∃ t, e.text = some t ∧ t ≠ "") := by
  constructor
  · intro s e
    rw [runtimeStep]
    match he : e.args with
    | none => simp [he]
    | some l =>
      dsimp only
      by_cases hl : l.isEmpty
      · rw [if_pos hl]
        simp only [Option.isSome_none, Bool.false_eq_true, false_iff]
        rintro ⟨l2, hl2, hne⟩
        injection hl2 with hl2
        subst hl2
        exact hne (List.isEmpty_iff.mp hl)
      · rw [if_neg hl]
        simp only [Option.isSome_some, true_iff]
        exact ⟨l, rfl, fun hnil => hl (by simp [hnil])⟩
  · intro s e
    rw [consoleStep]
    by_cases hmem : s.contains (consoleMessageId e)
    · rw [if_pos hmem]
      dsimp only
      constructor
      · intro hs
        simp at hs
      · rintro ⟨hfresh, _⟩
        rw [hmem] at hfresh
        exact absurd hfresh (by decide)
    · rw [if_neg hmem]
      match ht : e.text with
      | none => simp [ht, Bool.eq_false_iff.mpr hmem]
      | some t =>
        dsimp only
        by_cases hte : t == ""
        · rw [if_pos hte]
          simp only [Option.isSome_none, Bool.false_eq_true, false_iff]
          rintro ⟨hfresh, t2, ht2, hne⟩
          injection ht2 with ht2
          subst ht2
          exact hne (by simpa using hte)
        · rw [if_neg hte]
          simp only [Option.isSome_some, true_iff]
          exact ⟨Bool.eq_false_iff.mpr hmem, t, rfl, by simpa using hte⟩

/-! ## C1: deduplication across the two channels -/

/-- Counterexample to C1 as stated: when the console-channel event arrives
first, both copies are emitted — the console handler emits without recording
the identity, and the runtime handler never checks the set, so two messages
are emitted for one identity instead of exactly one. -/
theorem c1_console_first_double_emission :
    runtimeMessageId (RuntimeEvent.mk "log" (some [strRemoteArg "hi"]) (some 1) (some 5)) =
      consoleMessageId
        (ConsoleEvent.mk "log" (some "hi") none none none none (some 5) (some 1))
    ∧ emitCount []
        [RawEvent.messageAdded
            (ConsoleEvent.mk "log" (some "hi") none none none none (some 5) (some 1)),
          RawEvent.runtimeCall
            (RuntimeEvent.mk "log" (some [strRemoteArg "hi"]) (some 1) (some 5))] = 2 := by
  constructor
  · rfl
  · rfl

/-- C1 amended: deduplication is one-directional.  The runtime handler
records identities but never checks them; the console handler checks but
never records.  When the runtime-channel event for an identity is processed
first (and carries a non-empty `args` list), exactly one message is emitted
for that identity: the runtime copy is emitted and the console copy is
suppressed — from any prior identity-set state. -/
theorem c1_dedup_runtime_first (s : List String) (r : RuntimeEvent) (c : ConsoleEvent)
    (l : List RemoteArg) (hargs : r.args = some l) (hne : l ≠ [])
    (hid : runtimeMessageId r = consoleMessageId c) :
    emitCount s [RawEvent.runtimeCall r, RawEvent.messageAdded c] = 1 := by
  rw [emitCount, stepEvent, runtimeStep]
  rw [show (match r.args with
      | none => (s, none)
      | some args =>
        if args.isEmpty then (s, none)
        else
          (s.insert (runtimeMessageId r),
            some (chalkWrap (runtimeColor r.type) (formatArgs (some args))))) =
      (s.insert (runtimeMessageId r),
        some (chalkWrap (runtimeColor r.type) (formatArgs (some l)))) from by
    rw [hargs]
    dsimp only
    rw [if_neg (by simp [hne])]]
  rw [emitCount, stepEvent, consoleStep]
  rw [if_pos (show (List.insert (runtimeMessageId r) s).contains (consoleMessageId c) = true by
    rw [← hid]
    exact List.elem_iff.mpr (List.mem_insert_self _ _))]
  rw [emitCount]
  simp

/-- Witness for the amended C1 at concrete events with equal identities. -/
theorem c1_dedup_runtime_first_witness :
    emitCount []
      [RawEvent.runtimeCall (RuntimeEvent.mk "log" (some [strRemoteArg "hi"]) (some 1) (some 5)),
        RawEvent.messageAdded
          (ConsoleEvent.mk "log" (some "hi") none none none none (some 5) (some 1))] = 1 :=
  c1_dedup_runtime_first []
    (RuntimeEvent.mk "log" (some [strRemoteArg "hi"]) (some 1) (some 5))
    (ConsoleEvent.mk "log" (some "hi") none none none none (some 5) (some 1))
    [strRemoteArg "hi"] rfl (List.cons_ne_nil _ _) rfl

/-! ## C9: file copy equals terminal output with ANSI stripped -/

/-- The SGR close sequence chalk appends (`ESC [ 3 9 m`). -/
def ansiClose : List Char := ['\x1b', '[', '3', '9', 'm']

theorem chalkOpenCode_digits (color : String) :
    ∀ c ∈ (chalkOpenCode color).data, c.isDigit := by
  unfold chalkOpenCode
  split_ifs <;> decide

theorem ansiBody_digits (xs : List Char) :
    ∀ ds : List Char, (∀ c ∈ ds, c.isDigit) → ansiBody (ds ++ 'm' :: xs) = some xs
  | [], _ => rfl
  | d :: ds, h => by
    rw [List.cons_append, ansiBody]
    rw [if_neg (by
      have := h d (List.mem_cons_self d ds)
      intro hm
      rw [beq_iff_eq] at hm
      subst hm
      simp at this)]
    rw [if_pos (by simp [h d (List.mem_cons_self d ds)])]
    exact ansiBody_digits xs ds (fun c hc => h c (List.mem_cons_of_mem d hc))

theorem stripAnsiChars_esc_some (rest r : List Char) (h : ansiTail rest = some r) :
    stripAnsiChars ('\x1b' :: rest) = stripAnsiChars r := by
  rw [stripAnsiChars]
  rw [if_pos (by decide)]
  split
  · rename_i r2 h2
    rw [h] at h2
    injection h2 with h2
    rw [h2]
  · rename_i h2
    rw [h] at h2
    cases h2

theorem stripAnsiChars_esc_none (rest : List Char) (h : ansiTail rest = none) :
    stripAnsiChars ('\x1b' :: rest) = '\x1b' :: stripAnsiChars rest := by
  rw [stripAnsiChars]
  rw [if_pos (by decide)]
  split
  · rename_i r2 h2
    rw [h] at h2
    cases h2
  · rfl

theorem stripAnsiChars_other (c : Char) (rest : List Char) (h : ¬ c = '\x1b') :
    stripAnsiChars (c :: rest) = c :: stripAnsiChars rest := by
  rw [stripAnsiChars]
  rw [if_neg (by simpa using h)]

theorem ansiBody_append_close_none : ∀ l : List Char,
    ansiBody l = none → ansiBody (l ++ ansiClose) = none
  | [], _ => by rfl
  | c :: rest, h => by
    rw [List.cons_append, ansiBody]
    rw [ansiBody] at h
    by_cases h1 : c == 'm'
    · rw [if_pos h1] at h
      cases h
    · rw [if_neg h1] at h ⊢
      by_cases h2 : c.isDigit || c == ';'
      · rw [if_pos h2] at h ⊢
        exact ansiBody_append_close_none rest h
      · rw [if_neg h2]

theorem ansiBody_append_close_some : ∀ (l r : List Char),
    ansiBody l = some r → ansiBody (l ++ ansiClose) = some (r ++ ansiClose)
  | [], r, h => by cases h
  | c :: rest, r, h => by
    rw [List.cons_append, ansiBody]
    rw [ansiBody] at h
    by_cases h1 : c == 'm'
    · rw [if_pos h1] at h ⊢
      injection h with h
      rw [h]
    · rw [if_neg h1] at h ⊢
      by_cases h2 : c.isDigit || c == ';'
      · rw [if_pos h2] at h ⊢
        exact ansiBody_append_close_some rest r h
      · rw [if_neg h2] at h
        cases h

theorem ansiTail_append_close_none (l : List Char) (h : ansiTail l = none) :
    ansiTail (l ++ ansiClose) = none := by
  match l with
  | [] => rfl
  | c :: rest =>
    rw [List.cons_append, ansiTail]
    rw [ansiTail] at h
    by_cases h1 : c == '['
    · rw [if_pos h1] at h ⊢
      exact ansiBody_append_close_none rest h
    · rw [if_neg h1]

theorem ansiTail_append_close_some (l r : List Char) (h : ansiTail l = some r) :
    ansiTail (l ++ ansiClose) = some (r ++ ansiClose) := by
  match l with
  | [] => cases h
  | c :: rest =>
    rw [List.cons_append, ansiTail]
    rw [ansiTail] at h
    by_cases h1 : c == '['
    · rw [if_pos h1] at h ⊢
      exact ansiBody_append_close_some rest r h
    · rw [if_neg h1] at h
      cases h

theorem stripAnsiChars_append_close (s : List Char) :
    stripAnsiChars (s ++ ansiClose) = stripAnsiChars s := by
  match s with
  | [] =>
    rw [List.nil_append]
    show stripAnsiChars ('\x1b' :: ['[', '3', '9', 'm']) = stripAnsiChars []
    rw [stripAnsiChars_esc_some ['[', '3', '9', 'm'] [] rfl]
  | c :: rest =>
    rw [List.cons_append]
    by_cases hc : c = '\x1b'
    · subst hc
      match hat : ansiTail rest with
      | some r =>
        rw [stripAnsiChars_esc_some _ _ (ansiTail_append_close_some rest r hat),
          stripAnsiChars_esc_some rest r hat]
        exact stripAnsiChars_append_close r
      | none =>
        rw [stripAnsiChars_esc_none _ (ansiTail_append_close_none rest hat),
          stripAnsiChars_esc_none rest hat,
          stripAnsiChars_append_close rest]
    · rw [stripAnsiChars_other c _ hc, stripAnsiChars_other c rest hc,
        stripAnsiChars_append_close rest]
termination_by s.length
decreasing_by
  · have h1 := ansiTail_length rest r hat
    simp only [List.length_cons]
    omega
  · simp
  · simp

theorem stripAnsiChars_open (code s : List Char) (h : ∀ c ∈ code, c.isDigit) :
    stripAnsiChars ('\x1b' :: '[' :: (code ++ 'm' :: s)) = stripAnsiChars s := by
  rw [stripAnsiChars_esc_some ('[' :: (code ++ 'm' :: s)) s ?_]
  rw [ansiTail]
  rw [if_pos (by decide)]
  exact ansiBody_digits s code h

theorem stripAnsi_chalkWrap (color : String) (s : String) :
    stripAnsi (chalkWrap color s) = stripAnsi s := by
  unfold stripAnsi chalkWrap
  have hdata : ("\x1b[" ++ chalkOpenCode color ++ "m" ++ s ++ "\x1b[39m").data
      = '\x1b' :: '[' :: ((chalkOpenCode color).data ++ 'm' :: (s.data ++ ansiClose)) := by
    rw [String.data_append, String.data_append, String.data_append, String.data_append]
    rw [show ("\x1b[" : String).data = ['\x1b', '['] from rfl,
      show ("m" : String).data = ['m'] from rfl,
      show ("\x1b[39m" : String).data = ansiClose from rfl]
    simp [List.append_assoc]
  rw [hdata, stripAnsiChars_open _ _ (chalkOpenCode_digits color),
    stripAnsiChars_append_close]

/-- C9: whenever a file stream is configured, the bytes written to it are
the terminal line with every ANSI escape sequence stripped, and the terminal
write itself does not depend on whether a file sink is configured. -/
theorem c9_file_copy_colorless (o : CaptureOptions) (m : ConsoleMessage) :
    (processMessage o true m).2 = some (stripAnsi ((processMessage o true m).1))
    ∧ (processMessage o true m).1 = (processMessage o false m).1 := by
  constructor
  · rw [processMessage]
    dsimp only
    by_cases hcol : o.colorize && o.format == "default"
    · rw [if_pos hcol, stripAnsi_chalkWrap]
      simp
    · rw [if_neg hcol]
      simp
  · rfl

/-! ## C10: onMessage frame effect -/

/-- C10: a non-function handler leaves the instance state unchanged (and the
call is total, hence cannot throw); a function handler is appended to
`messageHandlers` and every other instance field is unchanged. -/
theorem c10_onMessage_frame (st : CaptureState) (handler : JsCallback) :
    (typeofIsFunction handler = false → onMessage st handler = st)
    ∧ (typeofIsFunction handler = true →
        (onMessage st handler).messageHandlers = st.messageHandlers ++ [handler]
        ∧ (onMessage st handler).options = st.options
        ∧ (onMessage st handler).browser = st.browser
        ∧ (onMessage st handler).page = st.page
        ∧ (onMessage st handler).fileStream = st.fileStream) := by
  constructor
  · intro h
    rw [onMessage, if_neg (by simp [h])]
  · intro h
    rw [onMessage, if_pos h]
    exact ⟨rfl, rfl, rfl, rfl, rfl⟩

/-- Witness for C10 with a non-function and a function handler. -/
theorem c10_onMessage_frame_witness :
    onMessage
        (CaptureState.mk (CaptureOptions.mk true false true "default" none) none none none [])
        (JsCallback.value JVal.null) =
      CaptureState.mk (CaptureOptions.mk true false true "default" none) none none none []
    ∧ (onMessage
        (CaptureState.mk (CaptureOptions.mk true false true "default" none) none none none [])
        (JsCallback.fn 0)).messageHandlers = [] ++ [JsCallback.fn 0] :=
  ⟨(c10_onMessage_frame
      (CaptureState.mk (CaptureOptions.mk true false true "default" none) none none none [])
      (JsCallback.value JVal.null)).1 rfl,
    ((c10_onMessage_frame
      (CaptureState.mk (CaptureOptions.mk true false true "default" none) none none none [])
      (JsCallback.fn 0)).2 rfl).1⟩
